import Mathlib

/-!
Shallow embedding of the HonestLevy / GothamClean content scripts
(detection-and-replacement engine for clickbait video titles).

The repository contains two near-duplicate content scripts:
the HonestLevy variant (per-fragment memory is a Map keyed by video id,
watch-page idempotence is keyed by a video-id attribute, and the channel
classifier short-circuits on the channel's own pages) and the GothamClean
variant (WeakSet memory, boolean replaced flag, no page-context shortcut).
Both are embedded below; names follow the source where Lean allows it.

DOM fragments (video cards, watch-page title elements) are modelled as
explicit data: an element carries its text content and its attribute list,
and a card carries the ordered query results of the fixed selector lists
the source iterates over (so a selector cascade is the first hit of a
list of optional results).  Card identity (used by the Map/WeakSet
processing memory) is an explicit numeric id.
-/

namespace HonestLevy

/-! ## Identifier Extractor (extractVideoId) -/

/-- The character class [a-zA-Z0-9_-] of the four video-id regexes. -/
def isIdChar (c : Char) : Bool :=
  ('a' ≤ c && c ≤ 'z') || ('A' ≤ c && c ≤ 'Z') || ('0' ≤ c && c ≤ '9') ||
    c = '_' || c = '-'

/-- Take exactly `n` id-class characters from the front of a list
(the `{11}` fixed repetition of the regexes); fails otherwise. -/
def takeId : Nat → List Char → Option (List Char)
  | 0, _ => some []
  | _ + 1, [] => none
  | n + 1, c :: cs =>
    if isIdChar c then (takeId n cs).map (fun t => c :: t) else none

/-- Match the pattern `[?&]v=([a-zA-Z0-9_-]{11})` at the head of the list. -/
def matchWatch : List Char → Option (List Char)
  | c :: d :: e :: rest =>
    if (c = '?' ∨ c = '&') ∧ d = 'v' ∧ e = '=' then takeId 11 rest else none
  | _ => none

/-- Strip an exact literal from the front of the list, returning the rest. -/
def stripLit : List Char → List Char → Option (List Char)
  | [], cs => some cs
  | _ :: _, [] => none
  | l :: ls, c :: cs => if c = l then stripLit ls cs else none

/-- Match `lit` followed by 11 id-class characters at the head of the list
(the shape of the youtu.be / shorts / embed regexes). -/
def matchLit (lit : List Char) (cs : List Char) : Option (List Char) :=
  match stripLit lit cs with
  | some rest => takeId 11 rest
  | none => none

/-- Leftmost-match scan: try the matcher at every position, left to right
(the final empty position included), returning the first capture
(JavaScript `String.prototype.match`). -/
def scanFor (m : List Char → Option (List Char)) : List Char → Option (List Char)
  | [] => m []
  | c :: cs =>
    match m (c :: cs) with
    | some t => some t
    | none => scanFor m cs

def patYoutuBe : List Char := "youtu.be/".data

def patShorts : List Char := "/shorts/".data

def patEmbed : List Char := "/embed/".data

/-- `extractVideoId(url)`: `null`/`undefined`/empty input yields `null`;
otherwise the four fixed patterns are tried in order and the first
capture over the whole string is returned. -/
def extractVideoId (url : Option String) : Option String :=
  match url with
  | none => none
  | some u =>
    if u = "" then none
    else
      match scanFor matchWatch u.data with
      | some t => some (String.mk t)
      | none =>
      match scanFor (matchLit patYoutuBe) u.data with
      | some t => some (String.mk t)
      | none =>
      match scanFor (matchLit patShorts) u.data with
      | some t => some (String.mk t)
      | none =>
      match scanFor (matchLit patEmbed) u.data with
      | some t => some (String.mk t)
      | none => none

/-! ## DOM model -/

/-- A DOM element as the scripts observe it: its text content and its
attribute list (`getAttribute` / `setAttribute`). -/
structure Elem where
  textContent : String
  attrs : List (String × String)
deriving DecidableEq

def getAttribute (e : Elem) (name : String) : Option String :=
  (e.attrs.find? (fun p => p.1 = name)).map (fun p => p.2)

def setAttribute (e : Elem) (name v : String) : Elem :=
  { e with attrs := (name, v) :: e.attrs.filter (fun p => ¬ p.1 = name) }

/-- A bounding client rect, as consumed by `isElementVisible`. -/
structure Rect where
  width : Int
  height : Int
  top : Int
  bottom : Int
deriving DecidableEq

/-- `isElementVisible`: non-zero rendered size and at least partially
within the vertical viewport bounds. -/
def isElementVisible (r : Rect) (innerHeight : Int) : Bool :=
  r.width > 0 && r.height > 0 && r.top < innerHeight && r.bottom > 0

/-- A channel-attribution element found by one of the six channel
selectors: its visible text, its own `href` property, and the `href` of a
nested anchor if any (`channelElement.querySelector('a')?.href`). -/
structure ChannelElem where
  textContent : String
  href : Option String
  innerHref : Option String
deriving DecidableEq

/-- A video-card fragment, carrying the ordered query results of the fixed
selector lists the source iterates over, plus an identity (`id`) standing
for DOM-node identity (the key of the Map / WeakSet processing memory). -/
structure Card where
  id : Nat
  channelEls : List (Option ChannelElem)
  allLinks : List String
  links : List (Option String)
  titleEls : List (Option Elem)
  rect : Rect
deriving DecidableEq

/-- `findVideoLink`: first selector whose element exists and has a truthy
`href` (an empty href string is falsy in JavaScript and is skipped). -/
def findVideoLink (c : Card) : Option String :=
  c.links.findSome? (fun o =>
    match o with
    | some h => if h = "" then none else some h
    | none => none)

/-- `findTitleElement`: first selector with a match. -/
def findTitleElement (c : Card) : Option Elem :=
  c.titleEls.findSome? id

/-- Write back a mutation of the element `findTitleElement` returned
(the first present entry of the query-result list). -/
def replaceFirstSome (e : Elem) : List (Option Elem) → List (Option Elem)
  | [] => []
  | none :: rest => none :: replaceFirstSome e rest
  | some _ :: rest => some e :: rest

def setTitleElement (c : Card) (e : Elem) : Card :=
  { c with titleEls := replaceFirstSome e c.titleEls }

/-! ## Channel Classifier -/

/-- JavaScript `String.prototype.includes` on character lists. -/
def containsSub (hay needle : List Char) : Bool :=
  match hay with
  | [] => needle.isEmpty
  | _ :: t => needle.isPrefixOf hay || containsSub t needle

def jsIncludes (s sub : String) : Bool :=
  containsSub s.data sub.data

def GOTHAMCHESS_CHANNEL_ID : String := "UCQHX6ViZmPsWiYSFAyS0a3Q"

def GOTHAMCHESS_HANDLE : String := "@GothamChess"

def GOTHAMCHESS_NAMES : List String := ["gothamchess", "gotham chess", "levy rozman"]

/-- `isOnGothamChessPage`: the ambient URL matches one of the channel's
three known URL forms. -/
def isOnGothamChessPage (url : String) : Bool :=
  jsIncludes url "/@GothamChess" ||
  jsIncludes url "/c/GothamChess" ||
  jsIncludes url "/channel/UCQHX6ViZmPsWiYSFAyS0a3Q"

/-- `channelElement.href || channelElement.querySelector('a')?.href || ''`
(JavaScript falsy chain: an absent or empty href falls through). -/
def channelHref (ce : ChannelElem) : String :=
  match ce.href with
  | some h => if ¬ h = "" then h else (ce.innerHref.getD "")
  | none => ce.innerHref.getD ""

/-- The fragment-local classifier body shared by both variants: scan the
channel-attribution selector results in order, then fall back to scanning
every outbound link in the container. -/
def isGothamChessVideoLocal (card : Card) : Bool :=
  card.channelEls.any (fun o =>
    match o with
    | none => false
    | some ce =>
      let text := ce.textContent.toLower
      let href := channelHref ce
      GOTHAMCHESS_NAMES.any (fun name => jsIncludes text name) ||
      jsIncludes href GOTHAMCHESS_HANDLE ||
      jsIncludes href GOTHAMCHESS_CHANNEL_ID) ||
  card.allLinks.any (fun href =>
    jsIncludes href GOTHAMCHESS_HANDLE ||
    jsIncludes href GOTHAMCHESS_CHANNEL_ID ||
    jsIncludes href "/c/GothamChess")

/-- `isGothamChessVideo`, HonestLevy variant: page-context shortcut first,
then the fragment-local signals. -/
def isGothamChessVideo (url : String) (card : Card) : Bool :=
  if isOnGothamChessPage url then true else isGothamChessVideoLocal card

/-- `isGothamChessVideo`, GothamClean variant: fragment-local only
(no page-context shortcut). -/
def isGothamChessVideoGC (card : Card) : Bool :=
  isGothamChessVideoLocal card

/-! ## Title mapping and script state -/

/-- An entry of the cached title mapping; only `clean_title` is consumed. -/
structure TitleRecord where
  clean_title : String
deriving DecidableEq

/-- `titlesCache[videoId]` (object property access; absence is `undefined`). -/
def lookupTitle (cache : List (String × TitleRecord)) (k : String) :
    Option TitleRecord :=
  (cache.find? (fun p => p.1 = k)).map (fun p => p.2)

/-- `processedVideoIds.get(container)` for the HonestLevy Map, keyed by
card identity. -/
def mapGet (m : List (Nat × String)) (k : Nat) : Option String :=
  (m.find? (fun p => p.1 = k)).map (fun p => p.2)

/-- `processedVideoIds.set(container, videoId)`. -/
def mapSet (m : List (Nat × String)) (k : Nat) (v : String) :
    List (Nat × String) :=
  (k, v) :: m.filter (fun p => ¬ p.1 = k)

/-- Module-level mutable state of the HonestLevy content script. -/
structure HLState where
  titlesCache : List (String × TitleRecord)
  enabled : Bool
  replacedThisSession : Nat
  processedVideoIds : List (Nat × String)
deriving DecidableEq

/-- Module-level mutable state of the GothamClean content script
(`processedElements` is a WeakSet, modelled by the set of member ids). -/
structure GCState where
  titlesCache : List (String × TitleRecord)
  enabled : Bool
  replacedThisSession : Nat
  processedElements : List Nat
deriving DecidableEq

/-! ## Substitution Engine -/

/-- `processVideoCard(container)`, HonestLevy variant: extract the id from
the permalink, skip when the per-card memory already records this id,
look up the clean title, find the title element, require visibility,
no-op when the text is already the clean title, else mutate, tag,
remember, and bump the session counter. -/
def processVideoCard (st : HLState) (innerHeight : Int) (card : Card) :
    HLState × Card :=
  match extractVideoId (findVideoLink card) with
  | none => (st, card)
  | some videoId =>
    if mapGet st.processedVideoIds card.id = some videoId then (st, card)
    else
      match lookupTitle st.titlesCache videoId with
      | none => (st, card)
      | some titleData =>
        match findTitleElement card with
        | none => (st, card)
        | some titleElement =>
          if ¬ isElementVisible card.rect innerHeight then (st, card)
          else
            let originalTitle := titleElement.textContent
            if originalTitle = titleData.clean_title then (st, card)
            else
              let e1 : Elem := { titleElement with textContent := titleData.clean_title }
              let e2 := setAttribute e1 "data-honestlevy-original" originalTitle
              let e3 := setAttribute e2 "data-honestlevy-replaced" "true"
              ({ st with
                  processedVideoIds := mapSet st.processedVideoIds card.id videoId,
                  replacedThisSession := st.replacedThisSession + 1 },
               setTitleElement card e3)

/-- `processVideoCard(container)`, GothamClean variant: WeakSet membership
is checked first, then the fragment-local classifier gates the rest; no
visibility requirement. -/
def processVideoCardGC (st : GCState) (card : Card) : GCState × Card :=
  if st.processedElements.contains card.id then (st, card)
  else if ¬ isGothamChessVideoGC card then (st, card)
  else
    match extractVideoId (findVideoLink card) with
    | none => (st, card)
    | some videoId =>
      match lookupTitle st.titlesCache videoId with
      | none => (st, card)
      | some titleData =>
        match findTitleElement card with
        | none => (st, card)
        | some titleElement =>
          let originalTitle := titleElement.textContent
          if originalTitle = titleData.clean_title then (st, card)
          else
            let e1 : Elem := { titleElement with textContent := titleData.clean_title }
            let e2 := setAttribute e1 "data-gothamclean-original" originalTitle
            let e3 := setAttribute e2 "data-gothamclean-replaced" "true"
            ({ st with
                processedElements := card.id :: st.processedElements,
                replacedThisSession := st.replacedThisSession + 1 },
             setTitleElement card e3)

/-! ## Watch-page title processing

The watch-page loop queries four selectors in order; the result of each
query is modelled as an entry of `els`.  The loop visits entries in order
and, per variant, either stops at the first found element or (GothamClean,
when the element already carries the boolean replaced flag) moves on.
The returned Bool records whether the outward replacement notification
(`chrome.runtime.sendMessage`) was fired; neither variant touches
`replacedThisSession` on this path. -/

/-- Loop body of `processWatchPageTitle`, HonestLevy variant: at the first
found element, stop if the `data-honestlevy-video-id` attribute already
records the current video id; otherwise replace unless the text is
already the clean title, recording the id it was replaced for. -/
def watchLoopHL (videoId cleanTitle : String) :
    List (Option Elem) → Bool × List (Option Elem)
  | [] => (false, [])
  | none :: rest =>
    let r := watchLoopHL videoId cleanTitle rest
    (r.1, none :: r.2)
  | some e :: rest =>
    if getAttribute e "data-honestlevy-video-id" = some videoId then
      (false, some e :: rest)
    else if e.textContent = cleanTitle then (false, some e :: rest)
    else
      let e1 : Elem := { e with textContent := cleanTitle }
      let e2 := setAttribute e1 "data-honestlevy-original" e.textContent
      let e3 := setAttribute e2 "data-honestlevy-video-id" videoId
      (true, some e3 :: rest)

/-- `processWatchPageTitle()`, HonestLevy variant: the video id comes from
the ambient page URL; idempotence is keyed by the recorded video id. -/
def processWatchPageTitle (st : HLState) (url : String)
    (els : List (Option Elem)) : Bool × List (Option Elem) :=
  match extractVideoId (some url) with
  | none => (false, els)
  | some videoId =>
    match lookupTitle st.titlesCache videoId with
    | none => (false, els)
    | some titleData => watchLoopHL videoId titleData.clean_title els

/-- JavaScript truthiness of a `getAttribute` result (`null` and the empty
string are falsy). -/
def attrTruthy (a : Option String) : Bool :=
  match a with
  | none => false
  | some s => ¬ s = ""

/-- Loop body of `processWatchPageTitle`, GothamClean variant: an element
already carrying a truthy boolean replaced flag fails the loop guard and
the loop moves on to the next selector. -/
def watchLoopGC (cleanTitle : String) :
    List (Option Elem) → Bool × List (Option Elem)
  | [] => (false, [])
  | none :: rest =>
    let r := watchLoopGC cleanTitle rest
    (r.1, none :: r.2)
  | some e :: rest =>
    if attrTruthy (getAttribute e "data-gothamclean-replaced") then
      let r := watchLoopGC cleanTitle rest
      (r.1, some e :: r.2)
    else if e.textContent = cleanTitle then (false, some e :: rest)
    else
      let e1 : Elem := { e with textContent := cleanTitle }
      let e2 := setAttribute e1 "data-gothamclean-original" e.textContent
      let e3 := setAttribute e2 "data-gothamclean-replaced" "true"
      (true, some e3 :: rest)

/-- `processWatchPageTitle()`, GothamClean variant: idempotence is keyed
by a boolean replaced flag only. -/
def processWatchPageTitleGC (st : GCState) (url : String)
    (els : List (Option Elem)) : Bool × List (Option Elem) :=
  match extractVideoId (some url) with
  | none => (false, els)
  | some videoId =>
    match lookupTitle st.titlesCache videoId with
    | none => (false, els)
    | some titleData => watchLoopGC titleData.clean_title els

/-! ## Page Scanner -/

/-- The page as the HonestLevy scanner observes it: the card fragments the
six container selectors enumerate (in document order), the ambient URL,
the viewport height, and the watch-title selector results. -/
structure PageHL where
  cards : List Card
  url : String
  innerHeight : Int
  watchEls : List (Option Elem)
deriving DecidableEq

/-- `containers.forEach(processVideoCard)` over the enumerated cards. -/
def processCards (st : HLState) (innerHeight : Int) :
    List Card → HLState × List Card
  | [] => (st, [])
  | c :: cs =>
    let r1 := processVideoCard st innerHeight c
    let r2 := processCards r1.1 innerHeight cs
    (r2.1, r1.2 :: r2.2)

/-- `scanPage()`, HonestLevy variant: no-op when disabled; otherwise
process every enumerated card, then the watch-page title. -/
def scanPage (st : HLState) (p : PageHL) : HLState × PageHL :=
  if ¬ st.enabled then (st, p)
  else
    let r1 := processCards st p.innerHeight p.cards
    let r2 := processWatchPageTitle r1.1 p.url p.watchEls
    (r1.1, { p with cards := r1.2, watchEls := r2.2 })

/-! ## Change-Driven Scheduler and wiring (HonestLevy variant)

`init` wires the mutation observer and the navigation/scroll listeners
only when the script starts enabled; the `chrome.storage.onChanged`
listener is registered at module load and only ever calls `scanPage`.
The lifecycle is modelled as a step function over externally delivered
events; `scans` counts `scanPage` invocations (a debounced timer that
fires is one invocation). -/

/-- The `yt-navigate-finish` / `popstate` handler state change:
`processedVideoIds.clear()` (the rescan is the `scanPage` call the
handler schedules after its fixed delay). -/
def ytNavigateFinishHandler (st : HLState) : HLState :=
  { st with processedVideoIds := [] }

/-- The `getTitles` response: `titles` and `enabled` fields, either of
which may be absent (`undefined`). -/
structure TitlesResponse where
  titles : Option (List (String × TitleRecord))
  enabled : Option Bool
deriving DecidableEq

/-- A content-script instance: its module state, which host-event sources
have been wired, and how many `scanPage` invocations have occurred. -/
structure ContentScript where
  st : HLState
  observerInstalled : Bool
  navListenerInstalled : Bool
  scrollListenerInstalled : Bool
  scans : Nat
deriving DecidableEq

/-- `init()`: a failed `getTitles` round-trip leaves the script inert;
`enabled = response.enabled !== false`; when disabled, return before the
initial scan and before any wiring; otherwise scan once and install the
observer and the navigation/scroll listeners. -/
def init (resp : Option TitlesResponse) : ContentScript :=
  match resp with
  | none =>
    { st := { titlesCache := [], enabled := true, replacedThisSession := 0,
              processedVideoIds := [] },
      observerInstalled := false, navListenerInstalled := false,
      scrollListenerInstalled := false, scans := 0 }
  | some r =>
    let st : HLState :=
      { titlesCache := r.titles.getD [], enabled := ¬ r.enabled = some false,
        replacedThisSession := 0, processedVideoIds := [] }
    if ¬ st.enabled then
      { st := st, observerInstalled := false, navListenerInstalled := false,
        scrollListenerInstalled := false, scans := 0 }
    else
      { st := st, observerInstalled := true, navListenerInstalled := true,
        scrollListenerInstalled := true, scans := 1 }

/-- A `chrome.storage.onChanged` event: the namespace, and the new values
of the `enabled` and `titles` keys when those keys changed. -/
structure StorageChange where
  namespaceLocal : Bool
  enabledNew : Option Bool
  titlesNew : Option (Option (List (String × TitleRecord)))
deriving DecidableEq

/-- The module-level `chrome.storage.onChanged` listener: mirror the new
`enabled` value (clearing memory and scanning when turned on), and on a
titles change swap the cache, clear memory, and scan.  It never wires
observers or listeners. -/
def storageChangedHandler (s : ContentScript) (ch : StorageChange) :
    ContentScript :=
  if ¬ ch.namespaceLocal then s
  else
    let s1 :=
      match ch.enabledNew with
      | none => s
      | some v =>
        if v then
          { s with st := { s.st with enabled := v, processedVideoIds := [] },
                   scans := s.scans + 1 }
        else { s with st := { s.st with enabled := v } }
    match ch.titlesNew with
    | none => s1
    | some tv =>
      { s1 with
          st := { s1.st with titlesCache := tv.getD [], processedVideoIds := [] },
          scans := s1.scans + 1 }

/-- Host events a running instance can receive. -/
inductive PageEvent
  | domMutation (addedNodes : Bool) (hrefAttrChange : Bool)
  | ytNavigateFinish
  | popstate
  | scroll
  | storage (ch : StorageChange)
deriving DecidableEq

def isStorageEvent : PageEvent → Bool
  | .storage _ => true
  | _ => false

/-- Event dispatch: an event source only reacts when its listener was
installed by `init`; the mutation-observer callback additionally checks
`enabled` and requires added nodes or an href attribute change; the
navigation handlers clear the processing memory; every reaction's
(debounced) `scanPage` is counted in `scans`. -/
def handleEvent (s : ContentScript) : PageEvent → ContentScript
  | .domMutation added href =>
    if s.observerInstalled then
      if ¬ s.st.enabled then s
      else if added || href then { s with scans := s.scans + 1 }
      else s
    else s
  | .ytNavigateFinish =>
    if s.navListenerInstalled then
      { s with st := ytNavigateFinishHandler s.st, scans := s.scans + 1 }
    else s
  | .popstate =>
    if s.navListenerInstalled then
      { s with st := ytNavigateFinishHandler s.st, scans := s.scans + 1 }
    else s
  | .scroll =>
    if s.scrollListenerInstalled then { s with scans := s.scans + 1 } else s
  | .storage ch => storageChangedHandler s ch

/-! ## Concrete scenarios (witness inputs) -/

/-- The storage push flipping `enabled` to true. -/
def pushEnabledOn : StorageChange :=
  { namespaceLocal := true, enabledNew := some true, titlesNew := none }

def elemClickbait : Elem :=
  { textContent := "YOU WON'T BELIEVE THIS BLUNDER!!!", attrs := [] }

def rectVisible : Rect :=
  { width := 300, height := 80, top := 100, bottom := 180 }

/-- The specification's end-to-end scenario card: permalink
`https://x/watch?v=abcEFghiJKL`, clickbait title, visible. -/
def cardScenario : Card :=
  { id := 0, channelEls := [], allLinks := [],
    links := [some "https://x/watch?v=abcEFghiJKL"],
    titleEls := [some elemClickbait], rect := rectVisible }

def cacheScenario : List (String × TitleRecord) :=
  [("abcEFghiJKL", { clean_title := "Magnus Resigns After 3 Moves" })]

def stScenario : HLState :=
  { titlesCache := cacheScenario, enabled := true, replacedThisSession := 0,
    processedVideoIds := [] }

def pageScenario : PageHL :=
  { cards := [cardScenario], url := "https://x/feed", innerHeight := 600,
    watchEls := [] }

/-- A card whose permalink selector finds no element. -/
def cardNoLink : Card :=
  { id := 1, channelEls := [], allLinks := [], links := [none],
    titleEls := [some elemClickbait], rect := rectVisible }

def stDisabled : HLState :=
  { titlesCache := cacheScenario, enabled := false, replacedThisSession := 0,
    processedVideoIds := [] }

/-- A mapping tracking two videos A and B. -/
def cacheAB : List (String × TitleRecord) :=
  [("AAAAAAAAAAA", { clean_title := "Clean Title A" }),
   ("BBBBBBBBBBB", { clean_title := "Clean Title B" })]

/-- The card after a substitution for A: clean title shown, tagged. -/
def elemCleanA : Elem :=
  { textContent := "Clean Title A",
    attrs := [("data-honestlevy-replaced", "true"),
              ("data-honestlevy-original", "CLICKBAIT A!!!")] }

def cardCleanA : Card :=
  { id := 0, channelEls := [], allLinks := [],
    links := [some "https://x/watch?v=AAAAAAAAAAA"],
    titleEls := [some elemCleanA], rect := rectVisible }

/-- HonestLevy state after substituting A on card 0. -/
def stMemA : HLState :=
  { titlesCache := cacheAB, enabled := true, replacedThisSession := 1,
    processedVideoIds := [(0, "AAAAAAAAAAA")] }

def pageAfterNav : PageHL :=
  { cards := [cardCleanA], url := "https://x/feed", innerHeight := 600,
    watchEls := [] }

/-- The recycled card: same node (id 0, still showing A's clean title),
permalink now pointing at B. -/
def cardRecycledB : Card :=
  { id := 0, channelEls := [], allLinks := [],
    links := [some "https://x/watch?v=BBBBBBBBBBB"],
    titleEls := [some elemCleanA], rect := rectVisible }

/-- A GothamClean card for tracked video A, attributed to the channel
through an outbound handle link. -/
def cardGCA : Card :=
  { id := 0, channelEls := [none],
    allLinks := ["https://www.youtube.com/@GothamChess"],
    links := [some "https://x/watch?v=AAAAAAAAAAA"],
    titleEls := [some { textContent := "CLICKBAIT A!!!", attrs := [] }],
    rect := rectVisible }

def gcState0 : GCState :=
  { titlesCache := cacheAB, enabled := true, replacedThisSession := 0,
    processedElements := [] }

/-- GothamClean state after the first scan substituted A on card 0. -/
def gcStateAfterA : GCState :=
  (processVideoCardGC gcState0 cardGCA).1

/-- The same card recycled to video B under the GothamClean variant. -/
def gcCardRecycledB : Card :=
  { (processVideoCardGC gcState0 cardGCA).2 with
      links := [some "https://x/watch?v=BBBBBBBBBBB"] }

/-- A watch-page title element previously replaced for A by the
GothamClean variant: boolean replaced flag set. -/
def elemWatchGC : Elem :=
  { textContent := "Clean Title A",
    attrs := [("data-gothamclean-replaced", "true"),
              ("data-gothamclean-original", "CLICKBAIT A!!!")] }

/-- A watch-page title element previously replaced for A by the
HonestLevy variant: tagged with the video id it was replaced for. -/
def elemWatchHL : Elem :=
  { textContent := "Clean Title A",
    attrs := [("data-honestlevy-video-id", "AAAAAAAAAAA"),
              ("data-honestlevy-original", "CLICKBAIT A!!!")] }

/-- A fragment carrying no channel attribution at all. -/
def blankCard : Card :=
  { id := 5, channelEls := [], allLinks := [], links := [], titleEls := [],
    rect := { width := 0, height := 0, top := 0, bottom := 0 } }

def gothamPageUrl : String := "https://www.youtube.com/@GothamChess/videos"

/-- A `getTitles` response that starts the script disabled. -/
def respDisabled : TitlesResponse := { titles := none, enabled := some false }

/-- A burst of non-storage host events. -/
def burstEvents : List PageEvent :=
  [PageEvent.domMutation true true, PageEvent.ytNavigateFinish,
   PageEvent.popstate, PageEvent.scroll]

/-! ## Semantic URL-shape predicates (the specification's wording)

These describe, by explicit string decomposition, a URL "containing a
query parameter `v=` followed by exactly 11 identifier characters" and
the three literal-prefixed shapes; they are the specification side against
which the extractor is checked. -/

/-- The watch-query shape starts here: a `?` or `&`, then `v=`, then 11
identifier characters. -/
def vHead (l : List Char) : Prop :=
  ∃ c tok rest, l = c :: 'v' :: '=' :: (tok ++ rest) ∧ (c = '?' ∨ c = '&') ∧
    tok.length = 11 ∧ ∀ x ∈ tok, isIdChar x = true

/-- The watch-query shape occurs at position `i` of the URL. -/
def vParamAt (s : List Char) (i : Nat) : Prop :=
  vHead (s.drop i)

/-- A literal-prefixed shape (`youtu.be/`, `/shorts/`, `/embed/`) starts
here: the literal, then 11 identifier characters. -/
def litHead (lit l : List Char) : Prop :=
  ∃ tok rest, l = lit ++ (tok ++ rest) ∧ tok.length = 11 ∧
    ∀ x ∈ tok, isIdChar x = true

/-- A literal-prefixed shape occurs at position `i` of the URL. -/
def litShapeAt (lit s : List Char) (i : Nat) : Prop :=
  litHead lit (s.drop i)

/-! ## Extractor lemmas -/

theorem takeId_some {n : Nat} {l t : List Char} (h : takeId n l = some t) :
    t.length = n ∧ (∀ x ∈ t, isIdChar x = true) ∧ ∃ r, l = t ++ r := by
  induction n generalizing l t with
  | zero =>
    simp only [takeId, Option.some.injEq] at h
    subst h
    exact ⟨rfl, by simp, l, rfl⟩
  | succ n ih =>
    match l with
    | [] => simp [takeId] at h
    | c :: cs =>
      simp only [takeId] at h
      by_cases hc : isIdChar c = true
      · rw [if_pos hc] at h
        match ht : takeId n cs with
        | none => rw [ht] at h; simp at h
        | some t' =>
          rw [ht] at h
          simp at h
          subst h
          obtain ⟨hlen, hall, r, hr⟩ := ih ht
          exact ⟨by simp [hlen], by
            intro x hx
            rcases List.mem_cons.mp hx with h1 | h2
            · exact h1 ▸ hc
            · exact hall x h2, r, by simp [hr]⟩
      · rw [if_neg hc] at h; simp at h

theorem takeId_of {t : List Char} (r : List Char)
    (hall : ∀ x ∈ t, isIdChar x = true) :
    takeId t.length (t ++ r) = some t := by
  induction t with
  | nil => simp [takeId]
  | cons c cs ih =>
    have hc : isIdChar c = true := hall c (List.mem_cons_self ..)
    simp only [List.length_cons, List.cons_append, takeId, hc, if_pos,
      List.append_eq]
    rw [ih (fun x hx => hall x (List.mem_cons_of_mem _ hx))]
    rfl

theorem matchWatch_some {l t : List Char} (h : matchWatch l = some t) :
    ∃ c rest, l = c :: 'v' :: '=' :: (t ++ rest) ∧ (c = '?' ∨ c = '&') ∧
      t.length = 11 ∧ ∀ x ∈ t, isIdChar x = true := by
  match l with
  | [] => simp [matchWatch] at h
  | [c] => simp [matchWatch] at h
  | [c, d] => simp [matchWatch] at h
  | c :: d :: e :: rest =>
    simp only [matchWatch] at h
    by_cases hg : (c = '?' ∨ c = '&') ∧ d = 'v' ∧ e = '='
    · rw [if_pos hg] at h
      obtain ⟨hc, hd, he⟩ := hg
      obtain ⟨hlen, hall, r, hr⟩ := takeId_some h
      exact ⟨c, r, by rw [hd, he, hr], hc, hlen, hall⟩
    · rw [if_neg hg] at h; simp at h

theorem matchWatch_of {c : Char} {t : List Char} (r : List Char)
    (hc : c = '?' ∨ c = '&') (hlen : t.length = 11)
    (hall : ∀ x ∈ t, isIdChar x = true) :
    matchWatch (c :: 'v' :: '=' :: (t ++ r)) = some t := by
  simp only [matchWatch]
  rw [if_pos ⟨hc, trivial, trivial⟩, ← hlen]
  exact takeId_of r hall

theorem stripLit_some {lit l r : List Char} (h : stripLit lit l = some r) :
    l = lit ++ r := by
  induction lit generalizing l with
  | nil => simp only [stripLit, Option.some.injEq] at h; simp [h]
  | cons a as ih =>
    match l with
    | [] => simp [stripLit] at h
    | c :: cs =>
      simp only [stripLit] at h
      by_cases hc : c = a
      · rw [if_pos (by simp [hc])] at h
        simp [hc, ih h]
      · rw [if_neg (by simp [hc])] at h; simp at h

theorem stripLit_of (lit r : List Char) : stripLit lit (lit ++ r) = some r := by
  induction lit with
  | nil => rfl
  | cons a as ih => simp [stripLit, ih]

theorem matchLit_some {lit l t : List Char} (h : matchLit lit l = some t) :
    ∃ rest, l = lit ++ (t ++ rest) ∧ t.length = 11 ∧
      ∀ x ∈ t, isIdChar x = true := by
  simp only [matchLit] at h
  match hs : stripLit lit l with
  | none => rw [hs] at h; simp at h
  | some rest0 =>
    rw [hs] at h
    obtain ⟨hlen, hall, r, hr⟩ := takeId_some h
    exact ⟨r, by rw [stripLit_some hs, hr], hlen, hall⟩

theorem matchLit_of (lit : List Char) {t : List Char} (r : List Char)
    (hlen : t.length = 11) (hall : ∀ x ∈ t, isIdChar x = true) :
    matchLit lit (lit ++ (t ++ r)) = some t := by
  simp only [matchLit, stripLit_of]
  rw [← hlen]
  exact takeId_of r hall

theorem scanFor_of_first {m : List Char → Option (List Char)}
    {s t : List Char} {i : Nat} (h : m (s.drop i) = some t)
    (hmin : ∀ j, j < i → m (s.drop j) = none) : scanFor m s = some t := by
  induction s generalizing i with
  | nil =>
    match i with
    | 0 => exact h
    | j + 1 =>
      have h0 : m (List.drop 0 ([] : List Char)) = none :=
        hmin 0 (Nat.succ_pos j)
      simp only [List.drop_nil] at h h0
      rw [h0] at h
      exact absurd h (by simp)
  | cons c cs ih =>
    match i with
    | 0 =>
      simp only [List.drop] at h
      simp [scanFor, h]
    | j + 1 =>
      have h0 : m (c :: cs) = none := by
        have := hmin 0 (Nat.succ_pos j)
        simpa using this
      simp only [scanFor, h0]
      exact ih (by simpa using h) (fun k hk => by
        have := hmin (k + 1) (Nat.succ_lt_succ hk)
        simpa using this)

theorem scanFor_eq_none {m : List Char → Option (List Char)} {s : List Char}
    (h : ∀ i, m (s.drop i) = none) : scanFor m s = none := by
  induction s with
  | nil => simpa using h 0
  | cons c cs ih =>
    have h0 : m (c :: cs) = none := by simpa using h 0
    simp only [scanFor, h0]
    exact ih (fun i => by simpa using h (i + 1))

/-- The watch-shape predicate coincides with the success of the first
matcher; this also makes it decidable. -/
theorem vHead_iff_matchWatch (l : List Char) :
    vHead l ↔ (matchWatch l).isSome = true := by
  constructor
  · rintro ⟨c, tok, rest, hl, hc, hlen, hall⟩
    rw [hl, matchWatch_of rest hc hlen hall]
    rfl
  · intro h
    match hm : matchWatch l with
    | none => rw [hm] at h; simp at h
    | some t =>
      obtain ⟨c, rest, hl, hc, hlen, hall⟩ := matchWatch_some hm
      exact ⟨c, t, rest, hl, hc, hlen, hall⟩

theorem litHead_iff_matchLit (lit l : List Char) :
    litHead lit l ↔ (matchLit lit l).isSome = true := by
  constructor
  · rintro ⟨tok, rest, hl, hlen, hall⟩
    rw [hl, matchLit_of lit rest hlen hall]
    rfl
  · intro h
    match hm : matchLit lit l with
    | none => rw [hm] at h; simp at h
    | some t =>
      obtain ⟨rest, hl, hlen, hall⟩ := matchLit_some hm
      exact ⟨t, rest, hl, hlen, hall⟩

instance (s : List Char) (i : Nat) : Decidable (vParamAt s i) :=
  decidable_of_iff _ (vHead_iff_matchWatch (s.drop i)).symm

instance (lit s : List Char) (i : Nat) : Decidable (litShapeAt lit s i) :=
  decidable_of_iff _ (litHead_iff_matchLit lit (s.drop i)).symm

theorem scanWatch_eq_none {u : List Char}
    (h : ∀ i, i < u.length → ¬ vParamAt u i) :
    scanFor matchWatch u = none := by
  apply scanFor_eq_none
  intro i
  by_cases hi : i < u.length
  · match hm : matchWatch (u.drop i) with
    | none => rfl
    | some t =>
      exact absurd ((vHead_iff_matchWatch _).mpr (by rw [hm]; rfl)) (h i hi)
  · rw [List.drop_eq_nil_of_le (Nat.le_of_not_lt hi)]
    rfl

theorem scanLit_eq_none {u lit : List Char} (hlit : matchLit lit [] = none)
    (h : ∀ i, i < u.length → ¬ litShapeAt lit u i) :
    scanFor (matchLit lit) u = none := by
  apply scanFor_eq_none
  intro i
  by_cases hi : i < u.length
  · match hm : matchLit lit (u.drop i) with
    | none => rfl
    | some t =>
      exact absurd ((litHead_iff_matchLit _ _).mpr (by rw [hm]; rfl)) (h i hi)
  · rw [List.drop_eq_nil_of_le (Nat.le_of_not_lt hi)]
    exact hlit

/-- C4: for every URL containing the query parameter `v=` followed by
exactly 11 identifier characters (at its first watch-shape occurrence),
`extractVideoId` returns that 11-character token; for every URL in which
none of the four known shapes (watch query parameter, shortened
`youtu.be` link, `/shorts/` path, `/embed/` path) occurs at any position,
and for an absent or empty input, it returns none. -/
theorem claim4_extractVideoId_correct :
    (∀ (u : String) (pre tok suf : List Char) (c : Char),
        (c = '?' ∨ c = '&') →
        u.data = pre ++ c :: 'v' :: '=' :: (tok ++ suf) →
        tok.length = 11 →
        (∀ x ∈ tok, isIdChar x = true) →
        (∀ j, j < pre.length → ¬ vParamAt u.data j) →
        extractVideoId (some u) = some (String.mk tok))
    ∧ (∀ u : String,
        (∀ i, i < u.data.length → ¬ vParamAt u.data i) →
        (∀ i, i < u.data.length → ¬ litShapeAt patYoutuBe u.data i) →
        (∀ i, i < u.data.length → ¬ litShapeAt patShorts u.data i) →
        (∀ i, i < u.data.length → ¬ litShapeAt patEmbed u.data i) →
        extractVideoId (some u) = none)
    ∧ extractVideoId none = none
    ∧ extractVideoId (some "") = none := by
  refine ⟨?_, ?_, rfl, by decide⟩
  · intro u pre tok suf c hc hdata hlen hall hmin
    have hne : ¬ u = "" := by
      intro h
      rw [h] at hdata
      cases pre <;> simp at hdata
    have hmatch : matchWatch (u.data.drop pre.length) = some tok := by
      rw [hdata, List.drop_left]
      exact matchWatch_of suf hc hlen hall
    have hscan : scanFor matchWatch u.data = some tok := by
      apply scanFor_of_first hmatch
      intro j hj
      match hm : matchWatch (u.data.drop j) with
      | none => rfl
      | some t =>
        exact absurd ((vHead_iff_matchWatch _).mpr (by rw [hm]; rfl))
          (hmin j hj)
    simp only [extractVideoId, if_neg hne, hscan]
  · intro u h1 h2 h3 h4
    by_cases hne : u = ""
    · rw [hne]
      decide
    · have hv := scanWatch_eq_none h1
      have hy := scanLit_eq_none (by decide) h2
      have hs := scanLit_eq_none (by decide) h3
      have he := scanLit_eq_none (by decide) h4
      simp only [extractVideoId, if_neg hne, hv, hy, hs, he]

theorem mapGet_mapSet (m : List (Nat × String)) (k : Nat) (v : String) :
    mapGet (mapSet m k v) k = some v := by
  simp [mapGet, mapSet]

@[simp]
theorem setTitleElement_id (c : Card) (e : Elem) :
    (setTitleElement c e).id = c.id := rfl

@[simp]
theorem findVideoLink_setTitleElement (c : Card) (e : Elem) :
    findVideoLink (setTitleElement c e) = findVideoLink c := rfl

/-- `processVideoCard` (HonestLevy) either leaves everything unchanged or
performs one substitution: it records the extracted id in the memory,
bumps the counter by one, and rewrites the title element. -/
theorem processVideoCard_spec (st : HLState) (innerHeight : Int) (card : Card) :
    processVideoCard st innerHeight card = (st, card) ∨
    ∃ v e, extractVideoId (findVideoLink card) = some v ∧
      ¬ mapGet st.processedVideoIds card.id = some v ∧
      processVideoCard st innerHeight card =
        ({ st with processedVideoIds := mapSet st.processedVideoIds card.id v,
                   replacedThisSession := st.replacedThisSession + 1 },
         setTitleElement card e) := by
  unfold processVideoCard
  split
  · left; rfl
  next videoId hext =>
    by_cases hmem : mapGet st.processedVideoIds card.id = some videoId
    · rw [if_pos hmem]; left; rfl
    · rw [if_neg hmem]
      split
      · left; rfl
      next titleData hlook =>
        split
        · left; rfl
        next titleElement hfind =>
          by_cases hvis : ¬ isElementVisible card.rect innerHeight = true
          · rw [if_pos hvis]; left; rfl
          · rw [if_neg hvis]
            by_cases heq : titleElement.textContent = titleData.clean_title
            · rw [if_pos heq]; left; rfl
            · rw [if_neg heq]
              right
              exact ⟨videoId, _, hext, hmem, rfl⟩

/-- `processVideoCardGC` (GothamClean) either leaves everything unchanged
or performs one substitution: it adds the card to the WeakSet, bumps the
counter by one, and rewrites the title element. -/
theorem processVideoCardGC_spec (st : GCState) (card : Card) :
    processVideoCardGC st card = (st, card) ∨
    (¬ st.processedElements.contains card.id = true ∧
      ∃ e, processVideoCardGC st card =
        ({ st with processedElements := card.id :: st.processedElements,
                   replacedThisSession := st.replacedThisSession + 1 },
         setTitleElement card e)) := by
  unfold processVideoCardGC
  by_cases hmem : st.processedElements.contains card.id = true
  · rw [if_pos hmem]; left; rfl
  · rw [if_neg hmem]
    by_cases hcl : ¬ isGothamChessVideoGC card = true
    · rw [if_pos hcl]; left; rfl
    · rw [if_neg hcl]
      split
      · left; rfl
      next videoId hext =>
        split
        · left; rfl
        next titleData hlook =>
          split
          · left; rfl
          next titleElement hfind =>
            by_cases heq : titleElement.textContent = titleData.clean_title
            · rw [if_pos heq]; left; rfl
            · rw [if_neg heq]
              right
              exact ⟨hmem, _, rfl⟩

/-- C1: in both variants, calling `processVideoCard` a second time on the
fragment and state produced by the first call changes nothing (same DOM
state), and a single call increments `replacedThisSession` by at most 1
(so two successive calls increment it by at most 1 in total and the same
text is never substituted twice into the same fragment). -/
theorem claim1_processVideoCard_idempotent (st : HLState) (gst : GCState)
    (innerHeight : Int) (card : Card) :
    (processVideoCard (processVideoCard st innerHeight card).1 innerHeight
        (processVideoCard st innerHeight card).2 =
          processVideoCard st innerHeight card
      ∧ (processVideoCard st innerHeight card).1.replacedThisSession ≤
          st.replacedThisSession + 1)
    ∧ (processVideoCardGC (processVideoCardGC gst card).1
          (processVideoCardGC gst card).2 = processVideoCardGC gst card
      ∧ (processVideoCardGC gst card).1.replacedThisSession ≤
          gst.replacedThisSession + 1) := by
  constructor
  · rcases processVideoCard_spec st innerHeight card with h | ⟨v, e, hext, hmem, h⟩
    · rw [h]
      exact ⟨h, Nat.le_succ _⟩
    · rw [h]
      refine ⟨?_, Nat.le_refl _⟩
      rcases processVideoCard_spec
          { st with processedVideoIds := mapSet st.processedVideoIds card.id v,
                    replacedThisSession := st.replacedThisSession + 1 }
          innerHeight (setTitleElement card e) with h2 | ⟨v2, e2, hext2, hmem2, h2⟩
      · exact h2
      · exfalso
        apply hmem2
        rw [findVideoLink_setTitleElement, hext] at hext2
        injection hext2 with hv
        subst hv
        simpa using mapGet_mapSet st.processedVideoIds card.id v
  · rcases processVideoCardGC_spec gst card with h | ⟨hmem, e, h⟩
    · rw [h]
      exact ⟨h, Nat.le_succ _⟩
    · rw [h]
      refine ⟨?_, Nat.le_refl _⟩
      rcases processVideoCardGC_spec
          { gst with processedElements := card.id :: gst.processedElements,
                     replacedThisSession := gst.replacedThisSession + 1 }
          (setTitleElement card e) with h2 | ⟨hmem2, e2, h2⟩
      · exact h2
      · exfalso
        apply hmem2
        simp [List.contains]

/-- Witness for C4 at concrete inputs: a watch URL with an 11-character
`v=` value, and a URL matching none of the four shapes. -/
theorem claim4_extractVideoId_witness :
    extractVideoId (some "https://x/watch?v=abcEFghiJKL") = some "abcEFghiJKL"
    ∧ extractVideoId (some "https://example.com/index.html") = none :=
  ⟨claim4_extractVideoId_correct.1 "https://x/watch?v=abcEFghiJKL"
      "https://x/watch".data "abcEFghiJKL".data [] '?' (Or.inl rfl)
      (by decide) (by decide) (by decide) (by decide),
   claim4_extractVideoId_correct.2.1 "https://example.com/index.html"
      (by decide) (by decide) (by decide) (by decide)⟩

theorem getAttribute_setAttribute_self (e : Elem) (n v : String) :
    getAttribute (setAttribute e n v) n = some v := by
  simp [getAttribute, setAttribute]

theorem findSome_replaceFirstSome (l : List (Option Elem)) (e : Elem)
    (h : (l.findSome? id).isSome = true) :
    (replaceFirstSome e l).findSome? id = some e := by
  induction l with
  | nil => simp [List.findSome?] at h
  | cons o rest ih =>
    cases o with
    | none =>
      simp only [List.findSome?_cons, id] at h
      simp only [replaceFirstSome, List.findSome?_cons, id]
      exact ih h
    | some x => simp [replaceFirstSome, List.findSome?_cons]

theorem findTitleElement_setTitleElement (c : Card) (e te : Elem)
    (h : findTitleElement c = some te) :
    findTitleElement (setTitleElement c e) = some e := by
  unfold findTitleElement at h ⊢
  unfold setTitleElement
  apply findSome_replaceFirstSome
  rw [h]
  rfl

/-- `processVideoCard` does nothing when the title element already shows
the clean title (whatever the visibility), provided the per-card memory
does not shortcut earlier. -/
theorem processVideoCard_noop_of_clean (st : HLState) (innerHeight : Int)
    (card : Card) (v : String) (td : TitleRecord) (te : Elem)
    (hmem : ¬ mapGet st.processedVideoIds card.id = some v)
    (hext : extractVideoId (findVideoLink card) = some v)
    (hlook : lookupTitle st.titlesCache v = some td)
    (hfind : findTitleElement card = some te)
    (htext : te.textContent = td.clean_title) :
    processVideoCard st innerHeight card = (st, card) := by
  unfold processVideoCard
  split
  · rfl
  next videoId h =>
    rw [h] at hext
    injection hext with hv
    subst hv
    rw [if_neg hmem]
    split
    · rfl
    next titleData h2 =>
      rw [h2] at hlook
      injection hlook with htd
      subst htd
      split
      · rfl
      next titleElement h3 =>
        rw [h3] at hfind
        injection hfind with hte
        subst hte
        by_cases hvis : ¬ isElementVisible card.rect innerHeight = true
        · rw [if_pos hvis]
        · rw [if_neg hvis, if_pos htext]

/-- The watch-page pass never mutates an empty selector-result list. -/
theorem processWatchPageTitle_nil (st : HLState) (url : String) :
    processWatchPageTitle st url [] = (false, []) := by
  unfold processWatchPageTitle
  split
  · rfl
  · split
    · rfl
    · rfl

/-- The storage-change listener never installs or removes any of the
wired event sources. -/
theorem storageChangedHandler_flags (s : ContentScript) (ch : StorageChange) :
    (storageChangedHandler s ch).observerInstalled = s.observerInstalled
    ∧ (storageChangedHandler s ch).navListenerInstalled = s.navListenerInstalled
    ∧ (storageChangedHandler s ch).scrollListenerInstalled
        = s.scrollListenerInstalled := by
  obtain ⟨ns, en, tn⟩ := ch
  cases ns <;> rcases en with _ | v <;> (try cases v) <;>
    rcases tn with _ | tv <;> simp [storageChangedHandler]

/-- While none of the host-event sources is wired, no sequence of host
events installs one, and no sequence free of storage pushes ever changes
the scan count. -/
theorem foldl_handleEvent_uninstalled (s : ContentScript)
    (evs : List PageEvent)
    (hobs : s.observerInstalled = false)
    (hnav : s.navListenerInstalled = false)
    (hscr : s.scrollListenerInstalled = false) :
    (evs.foldl handleEvent s).observerInstalled = false
    ∧ (evs.foldl handleEvent s).navListenerInstalled = false
    ∧ (evs.foldl handleEvent s).scrollListenerInstalled = false
    ∧ ((∀ e ∈ evs, isStorageEvent e = false) →
        (evs.foldl handleEvent s).scans = s.scans) := by
  induction evs generalizing s with
  | nil => exact ⟨hobs, hnav, hscr, fun _ => rfl⟩
  | cons e rest ih =>
    have hstep : (handleEvent s e).observerInstalled = false
        ∧ (handleEvent s e).navListenerInstalled = false
        ∧ (handleEvent s e).scrollListenerInstalled = false
        ∧ (isStorageEvent e = false → handleEvent s e = s) := by
      cases e with
      | domMutation a h => simp [handleEvent, hobs, hnav, hscr]
      | ytNavigateFinish => simp [handleEvent, hobs, hnav, hscr]
      | popstate => simp [handleEvent, hobs, hnav, hscr]
      | scroll => simp [handleEvent, hobs, hnav, hscr]
      | storage ch =>
        obtain ⟨f1, f2, f3⟩ := storageChangedHandler_flags s ch
        exact ⟨f1.trans hobs, f2.trans hnav, f3.trans hscr,
          fun hc => by simp [isStorageEvent] at hc⟩
    obtain ⟨h1, h2, h3, h4⟩ := hstep
    obtain ⟨g1, g2, g3, g4⟩ := ih (handleEvent s e) h1 h2 h3
    refine ⟨g1, g2, g3, fun hall => ?_⟩
    have hrest := g4 (fun x hx => hall x (List.mem_cons_of_mem _ hx))
    rw [List.foldl_cons, hrest, h4 (hall e (List.mem_cons_self ..))]

/-- C2 (amended, HonestLevy variant): when the per-fragment memory
records identifier `a` but the permalink now yields a tracked identifier
`b ≠ a`, `processVideoCard` re-substitutes: the counter is bumped, the
memory is re-keyed to `b`, and the title element shows `b`'s clean
title. -/
theorem claim2_recycling_resubstitutes (st : HLState) (innerHeight : Int)
    (card : Card) (a b : String) (td : TitleRecord) (te : Elem)
    (hmem : mapGet st.processedVideoIds card.id = some a)
    (hext : extractVideoId (findVideoLink card) = some b)
    (hne : ¬ a = b)
    (hlook : lookupTitle st.titlesCache b = some td)
    (hfind : findTitleElement card = some te)
    (hvis : isElementVisible card.rect innerHeight = true)
    (htext : ¬ te.textContent = td.clean_title) :
    (processVideoCard st innerHeight card).1.replacedThisSession
        = st.replacedThisSession + 1
    ∧ mapGet (processVideoCard st innerHeight card).1.processedVideoIds
        card.id = some b
    ∧ (findTitleElement (processVideoCard st innerHeight card).2).map
        Elem.textContent = some td.clean_title := by
  have hskip : ¬ mapGet st.processedVideoIds card.id = some b := by
    rw [hmem]
    intro hc
    injection hc with hc
    exact hne hc
  unfold processVideoCard
  split
  next h => rw [h] at hext; exact absurd hext (by simp)
  next videoId h =>
    rw [h] at hext
    injection hext with hv
    subst hv
    rw [if_neg hskip]
    split
    next h2 => rw [h2] at hlook; exact absurd hlook (by simp)
    next titleData h2 =>
      rw [h2] at hlook
      injection hlook with htd
      subst htd
      split
      next h3 => rw [h3] at hfind; exact absurd hfind (by simp)
      next titleElement h3 =>
        rw [h3] at hfind
        injection hfind with hte
        subst hte
        rw [if_neg (by simp [hvis]), if_neg htext]
        refine ⟨rfl, ?_, ?_⟩
        · exact mapGet_mapSet st.processedVideoIds card.id videoId
        · rw [findTitleElement_setTitleElement card _ titleElement h3]
          rfl

/-- Witness for C2's theorem: the recycled card (id 0, stale memory for
A, permalink now B) is re-substituted with B's clean title. -/
theorem claim2_recycling_witness :
    (processVideoCard stMemA 600 cardRecycledB).1.replacedThisSession = 2
    ∧ mapGet (processVideoCard stMemA 600 cardRecycledB).1.processedVideoIds
        0 = some "BBBBBBBBBBB"
    ∧ (findTitleElement (processVideoCard stMemA 600 cardRecycledB).2).map
        Elem.textContent = some "Clean Title B" :=
  claim2_recycling_resubstitutes stMemA 600 cardRecycledB
    "AAAAAAAAAAA" "BBBBBBBBBBB"
    { clean_title := "Clean Title B" } elemCleanA
    (by decide) (by decide) (by decide) (by decide) (by decide) (by decide)
    (by decide)

/-- Counterexample for C2 as stated: under the GothamClean variant
(WeakSet memory), the fragment recycled from tracked video A to tracked
video B is skipped entirely on the second invocation — the stale clean
title for A remains even though B is tracked. -/
theorem claim2_weakset_recycling_counterexample :
    processVideoCardGC gcStateAfterA gcCardRecycledB
        = (gcStateAfterA, gcCardRecycledB)
    ∧ (findTitleElement gcCardRecycledB).map Elem.textContent
        = some "Clean Title A"
    ∧ lookupTitle gcStateAfterA.titlesCache "BBBBBBBBBBB"
        = some { clean_title := "Clean Title B" }
    ∧ ¬ ("Clean Title A" : String) = "Clean Title B" := by
  decide

/-- C3 (amended, HonestLevy variant): `processWatchPageTitle` keys its
already-handled check on the `data-honestlevy-video-id` attribute, so a
title element last replaced for `a` is re-substituted when the ambient
URL yields a different tracked video `b`: the text becomes `b`'s clean
title and the attribute is re-keyed to `b`. -/
theorem claim3_watch_rekeys_by_video_id (st : HLState) (url : String)
    (e : Elem) (rest : List (Option Elem)) (a b : String) (td : TitleRecord)
    (hext : extractVideoId (some url) = some b)
    (hlook : lookupTitle st.titlesCache b = some td)
    (hattr : getAttribute e "data-honestlevy-video-id" = some a)
    (hne : ¬ a = b)
    (htext : ¬ e.textContent = td.clean_title) :
    (processWatchPageTitle st url (some e :: rest)).1 = true
    ∧ ((processWatchPageTitle st url (some e :: rest)).2.head?.bind id).map
        Elem.textContent = some td.clean_title
    ∧ ((processWatchPageTitle st url (some e :: rest)).2.head?.bind id).bind
        (fun x => getAttribute x "data-honestlevy-video-id") = some b := by
  have hnotb : ¬ getAttribute e "data-honestlevy-video-id" = some b := by
    rw [hattr]
    intro hc
    injection hc with hc
    exact hne hc
  unfold processWatchPageTitle
  split
  next h => rw [h] at hext; exact absurd hext (by simp)
  next videoId h =>
    rw [h] at hext
    injection hext with hv
    subst hv
    split
    next h2 => rw [h2] at hlook; exact absurd hlook (by simp)
    next titleData h2 =>
      rw [h2] at hlook
      injection hlook with htd
      subst htd
      unfold watchLoopHL
      rw [if_neg hnotb, if_neg htext]
      refine ⟨rfl, rfl, ?_⟩
      simp only [List.head?, Option.bind]
      exact getAttribute_setAttribute_self _ _ _

/-- Witness for C3's theorem: the watch title previously replaced for A
is re-substituted for B. -/
theorem claim3_watch_rekeys_witness :
    (processWatchPageTitle stMemA "https://x/watch?v=BBBBBBBBBBB"
        [some elemWatchHL]).1 = true
    ∧ ((processWatchPageTitle stMemA "https://x/watch?v=BBBBBBBBBBB"
        [some elemWatchHL]).2.head?.bind id).map Elem.textContent
        = some "Clean Title B"
    ∧ ((processWatchPageTitle stMemA "https://x/watch?v=BBBBBBBBBBB"
        [some elemWatchHL]).2.head?.bind id).bind
        (fun x => getAttribute x "data-honestlevy-video-id")
        = some "BBBBBBBBBBB" :=
  claim3_watch_rekeys_by_video_id stMemA "https://x/watch?v=BBBBBBBBBBB"
    elemWatchHL [] "AAAAAAAAAAA" "BBBBBBBBBBB"
    { clean_title := "Clean Title B" }
    (by decide) (by decide) (by decide) (by decide) (by decide)

/-- Counterexample for C3 as stated: the GothamClean variant keys the
check on the boolean `data-gothamclean-replaced` flag, so a title element
previously replaced for A blocks the legitimate re-substitution for the
now-current tracked video B. -/
theorem claim3_boolean_flag_counterexample :
    processWatchPageTitleGC gcState0 "https://x/watch?v=BBBBBBBBBBB"
        [some elemWatchGC] = (false, [some elemWatchGC])
    ∧ ¬ elemWatchGC.textContent = "Clean Title B"
    ∧ lookupTitle gcState0.titlesCache "BBBBBBBBBBB"
        = some { clean_title := "Clean Title B" } := by
  decide

/-- C5: the end-to-end positive scenario — mapping
`abcEFghiJKL ↦ "Magnus Resigns After 3 Moves"`, card permalink
`https://x/watch?v=abcEFghiJKL`, clickbait title text — after one
`scanPage`, the title text is exactly the clean title, the replaced-flag
and original-text attributes are set, and `replacedThisSession = 1`. -/
theorem claim5_scan_scenario :
    (scanPage stScenario pageScenario).1.replacedThisSession = 1
    ∧ ((scanPage stScenario pageScenario).2.cards.head?.bind
        findTitleElement).map Elem.textContent
        = some "Magnus Resigns After 3 Moves"
    ∧ ((scanPage stScenario pageScenario).2.cards.head?.bind
        findTitleElement).bind
        (fun e => getAttribute e "data-honestlevy-replaced") = some "true"
    ∧ ((scanPage stScenario pageScenario).2.cards.head?.bind
        findTitleElement).bind
        (fun e => getAttribute e "data-honestlevy-original")
        = some "YOU WON'T BELIEVE THIS BLUNDER!!!" := by
  decide

/-- C6: when the permalink identifier is missing, or the identifier is
absent from the mapping, or no title element is found, `processVideoCard`
returns leaving every part of the state unchanged. -/
theorem claim6_fail_soft (st : HLState) (innerHeight : Int) (card : Card)
    (h : extractVideoId (findVideoLink card) = none
      ∨ (∀ v, extractVideoId (findVideoLink card) = some v →
          lookupTitle st.titlesCache v = none)
      ∨ findTitleElement card = none) :
    processVideoCard st innerHeight card = (st, card) := by
  unfold processVideoCard
  rcases h with h | h | h
  · split
    · rfl
    next videoId hx => rw [hx] at h; exact absurd h (by simp)
  · split
    · rfl
    next videoId hx =>
      by_cases hmem : mapGet st.processedVideoIds card.id = some videoId
      · rw [if_pos hmem]
      · rw [if_neg hmem]
        split
        · rfl
        next titleData h2 => rw [h videoId hx] at h2; exact absurd h2 (by simp)
  · split
    · rfl
    next videoId hx =>
      by_cases hmem : mapGet st.processedVideoIds card.id = some videoId
      · rw [if_pos hmem]
      · rw [if_neg hmem]
        split
        · rfl
        next titleData h2 =>
          split
          · rfl
          next titleElement h3 => rw [h] at h3; exact absurd h3 (by simp)

/-- Witness for C6 at a concrete card whose permalink selector cascade
finds nothing. -/
theorem claim6_fail_soft_witness :
    processVideoCard stScenario 600 cardNoLink = (stScenario, cardNoLink) :=
  claim6_fail_soft stScenario 600 cardNoLink (Or.inl (by decide))

/-- C7: with `enabled = false`, `scanPage` is a no-op — the whole page
state and the whole script state are returned unchanged, whatever the
mapping holds. -/
theorem claim7_disabled_noop (st : HLState) (p : PageHL)
    (h : st.enabled = false) : scanPage st p = (st, p) := by
  unfold scanPage
  rw [if_pos (by simp [h])]

/-- Witness for C7 at a disabled state over the scenario page. -/
theorem claim7_disabled_noop_witness :
    scanPage stDisabled pageScenario = (stDisabled, pageScenario) :=
  claim7_disabled_noop stDisabled pageScenario (by decide)

/-- C8: the navigation handler clears `ProcessingMemory`, and on the
post-navigation scan a fragment previously substituted for identifier
`v` (title already showing `v`'s clean title) is re-evaluated and
reaches the same end state without incrementing the counter again. -/
theorem claim8_navigation_reset (st : HLState) (p : PageHL) (card : Card)
    (v : String) (td : TitleRecord) (te : Elem)
    (hcards : p.cards = [card]) (hwatch : p.watchEls = [])
    (hext : extractVideoId (findVideoLink card) = some v)
    (hlook : lookupTitle st.titlesCache v = some td)
    (hfind : findTitleElement card = some te)
    (htext : te.textContent = td.clean_title) :
    (ytNavigateFinishHandler st).processedVideoIds = []
    ∧ scanPage (ytNavigateFinishHandler st) p
        = (ytNavigateFinishHandler st, p) := by
  refine ⟨rfl, ?_⟩
  have hcard : processVideoCard (ytNavigateFinishHandler st) p.innerHeight
      card = (ytNavigateFinishHandler st, card) :=
    processVideoCard_noop_of_clean (ytNavigateFinishHandler st)
      p.innerHeight card v td te (by simp [ytNavigateFinishHandler, mapGet])
      hext hlook hfind htext
  unfold scanPage
  by_cases hen : ¬ (ytNavigateFinishHandler st).enabled = true
  · rw [if_pos hen]
  · rw [if_neg hen]
    rw [hcards, hwatch]
    simp only [processCards, hcard, processWatchPageTitle_nil]
    rw [← hcards, ← hwatch]

/-- Witness for C8: after navigation, the card already substituted for A
is left untouched by the rescan and the counter stays at 1. -/
theorem claim8_navigation_reset_witness :
    (ytNavigateFinishHandler stMemA).processedVideoIds = []
    ∧ scanPage (ytNavigateFinishHandler stMemA) pageAfterNav
        = (ytNavigateFinishHandler stMemA, pageAfterNav) :=
  claim8_navigation_reset stMemA pageAfterNav cardCleanA "AAAAAAAAAAA"
    { clean_title := "Clean Title A" } elemCleanA
    rfl rfl (by decide) (by decide) (by decide) (by decide)

/-- C9 (amended, HonestLevy variant): whenever the ambient URL matches
one of the channel's three URL forms, the classifier returns true for
every fragment, without inspecting the fragment. -/
theorem claim9_page_context_shortcut (url : String) (card : Card)
    (h : isOnGothamChessPage url = true) :
    isGothamChessVideo url card = true := by
  unfold isGothamChessVideo
  rw [if_pos h]

/-- Witness for C9's theorem: on the channel page, even a fragment with
no attribution at all is classified positively by the HonestLevy
variant. -/
theorem claim9_page_context_witness :
    isGothamChessVideo gothamPageUrl blankCard = true :=
  claim9_page_context_shortcut gothamPageUrl blankCard (by decide)

/-- Counterexample for C9 as stated: the GothamClean variant has no
page-context shortcut — on the same channel-page URL, a fragment without
local attribution is classified negatively. -/
theorem claim9_gc_no_shortcut_counterexample :
    isOnGothamChessPage gothamPageUrl = true
    ∧ isGothamChessVideoGC blankCard = false := by
  decide

/-- C10: when `init` runs with `enabled = false` it returns before any
wiring (no observer, no navigation listener, no scroll listener, no
scan); a later storage push flipping `enabled` to true performs exactly
one immediate `scanPage` call but installs nothing, so any subsequent
host events never install a listener, and any storage-free event
sequence never triggers another scan. -/
theorem claim10_disabled_init_wiring (r : TitlesResponse)
    (evs : List PageEvent) (hdis : r.enabled = some false)
    (hpure : ∀ e ∈ evs, isStorageEvent e = false) :
    (init (some r)).scans = 0
    ∧ (init (some r)).observerInstalled = false
    ∧ (init (some r)).navListenerInstalled = false
    ∧ (init (some r)).scrollListenerInstalled = false
    ∧ (storageChangedHandler (init (some r)) pushEnabledOn).scans = 1
    ∧ (storageChangedHandler (init (some r)) pushEnabledOn).st.enabled = true
    ∧ (evs.foldl handleEvent
        (storageChangedHandler (init (some r)) pushEnabledOn)).scans = 1
    ∧ (evs.foldl handleEvent
        (storageChangedHandler (init (some r))
          pushEnabledOn)).observerInstalled = false
    ∧ (evs.foldl handleEvent
        (storageChangedHandler (init (some r))
          pushEnabledOn)).navListenerInstalled = false
    ∧ (evs.foldl handleEvent
        (storageChangedHandler (init (some r))
          pushEnabledOn)).scrollListenerInstalled = false := by
  have h0 : init (some r) =
      { st := { titlesCache := r.titles.getD [], enabled := false,
                replacedThisSession := 0, processedVideoIds := [] },
        observerInstalled := false, navListenerInstalled := false,
        scrollListenerInstalled := false, scans := 0 } := by
    simp [init, hdis]
  rw [h0]
  have h1 : storageChangedHandler
      { st := { titlesCache := r.titles.getD [], enabled := false,
                replacedThisSession := 0, processedVideoIds := [] },
        observerInstalled := false, navListenerInstalled := false,
        scrollListenerInstalled := false,
        scans := 0 } pushEnabledOn =
      { st := { titlesCache := r.titles.getD [], enabled := true,
                replacedThisSession := 0, processedVideoIds := [] },
        observerInstalled := false, navListenerInstalled := false,
        scrollListenerInstalled := false, scans := 1 } := rfl
  rw [h1]
  obtain ⟨g1, g2, g3, g4⟩ := foldl_handleEvent_uninstalled
    { st := { titlesCache := r.titles.getD [], enabled := true,
              replacedThisSession := 0, processedVideoIds := [] },
      observerInstalled := false, navListenerInstalled := false,
      scrollListenerInstalled := false, scans := 1 } evs rfl rfl rfl
  exact ⟨rfl, rfl, rfl, rfl, rfl, rfl, g4 hpure, g1, g2, g3⟩

/-- Witness for C10: a disabled-start response, followed by the enable
push and a burst of mutation, navigation, and scroll events. -/
theorem claim10_disabled_init_wiring_witness :
    (init (some respDisabled)).scans = 0
    ∧ (init (some respDisabled)).observerInstalled = false
    ∧ (init (some respDisabled)).navListenerInstalled = false
    ∧ (init (some respDisabled)).scrollListenerInstalled = false
    ∧ (storageChangedHandler (init (some respDisabled))
        pushEnabledOn).scans = 1
    ∧ (storageChangedHandler (init (some respDisabled))
        pushEnabledOn).st.enabled = true
    ∧ (burstEvents.foldl handleEvent
        (storageChangedHandler (init (some respDisabled))
          pushEnabledOn)).scans = 1
    ∧ (burstEvents.foldl handleEvent
        (storageChangedHandler (init (some respDisabled))
          pushEnabledOn)).observerInstalled = false
    ∧ (burstEvents.foldl handleEvent
        (storageChangedHandler (init (some respDisabled))
          pushEnabledOn)).navListenerInstalled = false
    ∧ (burstEvents.foldl handleEvent
        (storageChangedHandler (init (some respDisabled))
          pushEnabledOn)).scrollListenerInstalled = false :=
  claim10_disabled_init_wiring respDisabled burstEvents rfl (by decide)

end HonestLevy
